import Mathlib

/-!
Shallow embedding of `sistema_facturacion.py`: products with validated
fields, an offer hierarchy (percentage discount and 2x1 bundle), a catalog
holding ordered product and offer lists, clients, and invoices with a
process-wide number counter.  Prices and discounts are modelled as
rationals (Python numbers under exact arithmetic), quantities as integers,
and Python's floor division `//` as `Int.fdiv`.  Exceptions are modelled
with `Except String`.
-/

/-- A product record; the field validation of the Python property setters
is modelled separately by `mkProducto` and the `set…` functions. -/
structure Producto where
  codigo : String
  nombre : String
  precio : ℚ
  tipo : String
  cantidad : ℤ
deriving DecidableEq, Repr

/-- Python `str.isdigit`: true iff the string is nonempty and all characters
are digits. -/
def pyIsDigit (s : String) : Bool :=
  !s.toList.isEmpty && s.toList.all Char.isDigit

/-- Validation of `Producto.codigo`: `len(value) == 4 and value.isdigit()`. -/
def validCodigo (v : String) : Bool :=
  v.length == 4 && pyIsDigit v

/-- Validation of `Producto.nombre` (also `Cliente.nombre`):
`1 <= len(value) <= 100`. -/
def validNombre (v : String) : Bool :=
  1 ≤ v.length && v.length ≤ 100

/-- Validation of `Producto.precio`: `10 <= value <= 10000`. -/
def validPrecio (v : ℚ) : Bool :=
  10 ≤ v && v ≤ 10000

/-- Validation of `Producto.tipo`: `0 <= len(value) <= 20`. -/
def validTipo (v : String) : Bool :=
  v.length ≤ 20

/-- Validation of `Producto.cantidad`: `0 <= value <= 1000`. -/
def validCantidad (v : ℤ) : Bool :=
  0 ≤ v && v ≤ 1000

/-- The `codigo` setter: assigns on success, raises `ValueError` otherwise. -/
def Producto.setCodigo (p : Producto) (v : String) : Except String Producto :=
  if validCodigo v then .ok { p with codigo := v }
  else .error "El codigo debe tener 4 digitos"

/-- The `nombre` setter. -/
def Producto.setNombre (p : Producto) (v : String) : Except String Producto :=
  if validNombre v then .ok { p with nombre := v }
  else .error "El nombre debe tener entre 1 y 100 caracteres"

/-- The `precio` setter. -/
def Producto.setPrecio (p : Producto) (v : ℚ) : Except String Producto :=
  if validPrecio v then .ok { p with precio := v }
  else .error "El precio debe estar entre 10 y 10000"

/-- The `tipo` setter. -/
def Producto.setTipo (p : Producto) (v : String) : Except String Producto :=
  if validTipo v then .ok { p with tipo := v }
  else .error "El tipo debe tener entre 0 y 20 caracteres"

/-- The `cantidad` setter. -/
def Producto.setCantidad (p : Producto) (v : ℤ) : Except String Producto :=
  if validCantidad v then .ok { p with cantidad := v }
  else .error "La cantidad debe estar entre 0 y 1000"

/-- `Producto.__init__`: runs the five setters in declaration order; the
first failing validation aborts the whole construction. -/
def mkProducto (codigo nombre : String) (precio : ℚ) (tipo : String)
    (cantidad : ℤ) : Except String Producto :=
  if ¬ validCodigo codigo then .error "El codigo debe tener 4 digitos"
  else if ¬ validNombre nombre then
    .error "El nombre debe tener entre 1 y 100 caracteres"
  else if ¬ validPrecio precio then
    .error "El precio debe estar entre 10 y 10000"
  else if ¬ validTipo tipo then
    .error "El tipo debe tener entre 0 y 20 caracteres"
  else if ¬ validCantidad cantidad then
    .error "La cantidad debe estar entre 0 y 1000"
  else .ok ⟨codigo, nombre, precio, tipo, cantidad⟩

/-- All five field validators hold: the invariant `mkProducto` establishes. -/
def validProducto (p : Producto) : Bool :=
  validCodigo p.codigo && validNombre p.nombre && validPrecio p.precio &&
    validTipo p.tipo && validCantidad p.cantidad

/-- `Producto.valorTotal`: `precio * cantidad`. -/
def Producto.valorTotal (p : Producto) : ℚ :=
  p.precio * p.cantidad

/-- The offer hierarchy: the two concrete subclasses of `Oferta`.
`descuento` is `OfertaDescuento` (percentage) with its `descuento`
parameter `pct`; `dos_por_uno` is `Oferta2x1`.  Both carry the base-class
state: description, eligible product codes, eligible category labels. -/
inductive Oferta where
  | descuento (descripcion : String) (pct : ℚ) (codigos tipos : List String)
  | dos_por_uno (descripcion : String) (codigos tipos : List String)
deriving DecidableEq, Repr

/-- The eligible product-code set of an offer. -/
def Oferta.codigos : Oferta → List String
  | .descuento _ _ cs _ => cs
  | .dos_por_uno _ cs _ => cs

/-- The eligible category set of an offer. -/
def Oferta.tipos : Oferta → List String
  | .descuento _ _ _ ts => ts
  | .dos_por_uno _ _ ts => ts

/-- `Oferta.esAplicable(producto, cantidad)`:
`producto.codigo in self.codigos or producto.tipo in self.tipos`.
The quantity argument is accepted and ignored, as in the source. -/
def Oferta.esAplicable (o : Oferta) (p : Producto) (_cantidad : ℤ) : Bool :=
  p.codigo ∈ o.codigos || p.tipo ∈ o.tipos

/-- Polymorphic `aplicar`: percentage variant returns
`precio * cantidad * (pct / 100)` when applicable, the 2x1 variant
`precio * (cantidad // 2)` when applicable, and both return 0 otherwise. -/
def Oferta.aplicar (o : Oferta) (p : Producto) (cantidad : ℤ) : ℚ :=
  match o with
  | .descuento _ pct _ _ =>
      if o.esAplicable p cantidad then p.precio * cantidad * (pct / 100) else 0
  | .dos_por_uno _ _ _ =>
      if o.esAplicable p cantidad then p.precio * ((cantidad.fdiv 2 : ℤ) : ℚ)
      else 0

/-- The catalog: an ordered product list and an ordered offer list. -/
structure Catalogo where
  productos : List Producto
  ofertas : List Oferta
deriving DecidableEq, Repr

/-- `Catalogo.agregar`: unconditionally appends the product. -/
def Catalogo.agregar (c : Catalogo) (p : Producto) : Catalogo :=
  { c with productos := c.productos ++ [p] }

/-- The loop body of `Catalogo.buscar`: first product whose code matches. -/
def buscarAux : List Producto → String → Option Producto
  | [], _ => none
  | p :: rest, co => if p.codigo = co then some p else buscarAux rest co

/-- `Catalogo.buscar(codigo)`: scan the product list in order, return the
first product with that code, or `None`. -/
def Catalogo.buscar (c : Catalogo) (codigo : String) : Option Producto :=
  buscarAux c.productos codigo

/-- `Catalogo.registrarOferta`: appends the offer to the ordered list. -/
def Catalogo.registrarOferta (c : Catalogo) (o : Oferta) : Catalogo :=
  { c with ofertas := c.ofertas ++ [o] }

/-- The loop body of `Catalogo.buscarOferta`: first applicable offer. -/
def buscarOfertaAux : List Oferta → Producto → ℤ → Option Oferta
  | [], _, _ => none
  | o :: rest, p, q =>
      if o.esAplicable p q then some o else buscarOfertaAux rest p q

/-- `Catalogo.buscarOferta(producto, cantidad)`: scan the offer list in
registration order, return the first offer whose `esAplicable` holds. -/
def Catalogo.buscarOferta (c : Catalogo) (p : Producto) (q : ℤ) :
    Option Oferta :=
  buscarOfertaAux c.ofertas p q

/-- `Catalogo.calcularDescuento`: the found offer's `aplicar`, or 0. -/
def Catalogo.calcularDescuento (c : Catalogo) (p : Producto) (q : ℤ) : ℚ :=
  match c.buscarOferta p q with
  | some o => o.aplicar p q
  | none => 0

/-- `Catalogo.cantidadProductos` property. -/
def Catalogo.cantidadProductos (c : Catalogo) : ℕ :=
  c.productos.length

/-- `Catalogo.cantidadUnidades` property: sum of on-hand quantities. -/
def Catalogo.cantidadUnidades (c : Catalogo) : ℤ :=
  (c.productos.map Producto.cantidad).sum

/-- `Catalogo.valorTotal` property: sum of per-product `valorTotal`. -/
def Catalogo.valorTotal (c : Catalogo) : ℚ :=
  (c.productos.map Producto.valorTotal).sum

/-- A client record; `nombre` and `cuit` validation modelled like
`Producto`'s setters. -/
structure Cliente where
  nombre : String
  cuit : String
deriving DecidableEq, Repr

/-- Validation of `Cliente.cuit`:
`len(value) == 13 and value[2] == '-' and value[11] == '-' and
value.replace('-', '').isdigit()`. -/
def validCuit (v : String) : Bool :=
  v.length == 13 && v.toList.get? 2 == some '-' && v.toList.get? 11 == some '-'
    && (let sinGuiones := v.toList.filter (fun ch => ch ≠ '-')
        !sinGuiones.isEmpty && sinGuiones.all Char.isDigit)

/-- The `cuit` setter of `Cliente`. -/
def Cliente.setCuit (c : Cliente) (v : String) : Except String Cliente :=
  if validCuit v then .ok { c with cuit := v }
  else .error "El CUIT debe tener el formato XX-XXXXXXXX-X"

/-- The `nombre` setter of `Cliente` (same bounds as `Producto.nombre`). -/
def Cliente.setNombre (c : Cliente) (v : String) : Except String Cliente :=
  if validNombre v then .ok { c with nombre := v }
  else .error "El nombre debe tener entre 1 y 100 caracteres"

/-!
Invoice numbering.  `Factura._ultimo_numero` is a class attribute; we model
it as explicitly threaded state of type `ℤ`.  `facturaNueva` is the part of
`Factura.__init__` that touches the counter: it increments it and assigns
the new value as the invoice's `numero`.
-/

/-- `Factura.__init__` counter effect: returns the assigned number and the
updated counter. -/
def facturaNueva (ultimo : ℤ) : ℤ × ℤ :=
  (ultimo + 1, ultimo + 1)

/-- `Factura.ultimaFactura(numero)`: overwrites the class counter. -/
def Factura.ultimaFactura (_ultimo : ℤ) (numero : ℤ) : ℤ :=
  numero

/-- Numbers assigned by constructing `n` invoices in sequence starting from
counter state `c`, together with the final counter state. -/
def facturasSeq : ℤ → ℕ → List ℤ × ℤ
  | c, 0 => ([], c)
  | c, n + 1 =>
      let (num, c') := facturaNueva c
      let (rest, c'') := facturasSeq c' n
      (num :: rest, c'')

/-!
Invoice line items.  `Factura.agregar` compares `item['producto'] ==
producto`, which for `Producto` (no `__eq__`) is object identity; we model
a product reference as a natural number standing for the object's identity.
-/

/-- A reference to a product object (Python object identity). -/
abbrev RefProducto := ℕ

/-- `Factura.agregar(producto, cantidad)`: scan the line list; on the first
line holding the same product, add the quantity and stop; if no line holds
it, append a new line at the end. -/
def Factura.agregarItem : List (RefProducto × ℤ) → RefProducto → ℤ →
    List (RefProducto × ℤ)
  | [], p, c => [(p, c)]
  | it :: rest, p, c =>
      if it.1 = p then (it.1, it.2 + c) :: rest
      else it :: Factura.agregarItem rest p c

/-!
Catalog persistence.  The CSV file is modelled at field granularity: a
header row plus one row of the five field values per product, in list
order (`csv.writer`/`csv.reader` round-trip field strings exactly, and
`float`/`int` parsing recovers the written numbers; what remains is the
positional mapping and per-row re-validation, modelled here).
-/

/-- The file written by `Catalogo.guardar`: header plus one row per
product with (codigo, nombre, precio, tipo, cantidad) in that order. -/
structure ArchivoCSV where
  encabezado : List String
  filas : List (String × String × ℚ × String × ℤ)
deriving DecidableEq, Repr

/-- `Catalogo.guardar(archivo)`. -/
def Catalogo.guardar (c : Catalogo) : ArchivoCSV :=
  ⟨["codigo", "nombre", "precio", "tipo", "cantidad"],
   c.productos.map (fun p => (p.codigo, p.nombre, p.precio, p.tipo, p.cantidad))⟩

/-- The row loop of `Catalogo.leer`: construct a `Producto` per row and
append it; a row whose construction raises stops the loop, leaving the
rows appended so far (the `Bool` records whether an error escaped). -/
def leerFilas : List (String × String × ℚ × String × ℤ) →
    List Producto × Bool
  | [] => ([], false)
  | (co, no, pr, ti, ca) :: rest =>
      match mkProducto co no pr ti ca with
      | .ok p =>
          let (ps, err) := leerFilas rest
          (p :: ps, err)
      | .error _ => ([], true)

/-- `Catalogo.leer(archivo)`: empties the product list, then appends one
product per data row (the header row is skipped). -/
def Catalogo.leer (c : Catalogo) (f : ArchivoCSV) : Catalogo × Bool :=
  let (ps, err) := leerFilas f.filas
  ({ c with productos := ps }, err)

/-!
`Catalogo.informe`.  The textual rendering is abstracted to the numbers it
prints: the overall average price `valorTotal / cantidadUnidades` and, per
category in first-insertion order, the unit count and the average price
`valor / unidades`.  Python raises `ZeroDivisionError` on a zero
denominator; the model returns `none` exactly there.
-/

/-- One step of the grouping loop of `informe`: upsert the product's
quantity and value into the ordered per-category accumulator. -/
def agregarTipoAcc : List (String × ℤ × ℚ) → Producto →
    List (String × ℤ × ℚ)
  | [], p => [(p.tipo, p.cantidad, p.valorTotal)]
  | e :: rest, p =>
      if e.1 = p.tipo then (e.1, e.2.1 + p.cantidad, e.2.2 + p.valorTotal) :: rest
      else e :: agregarTipoAcc rest p

/-- The grouping loop of `informe` over the whole product list. -/
def acumularTipos (ps : List Producto) : List (String × ℤ × ℚ) :=
  ps.foldl agregarTipoAcc []

/-- The per-category printing loop of `informe`: average = value/units,
`none` when a category's unit count is zero (ZeroDivisionError). -/
def promediosTipos : List (String × ℤ × ℚ) → Option (List (String × ℤ × ℚ))
  | [] => some []
  | (t, u, v) :: rest =>
      if u = 0 then none
      else
        match promediosTipos rest with
        | none => none
        | some r => some ((t, u, v / (u : ℚ)) :: r)

/-- The numeric content of `Catalogo.informe()`: the overall average price
and the per-category (label, units, average price) rows, or `none` when a
division by zero occurs. -/
def Catalogo.informeData (c : Catalogo) :
    Option (ℚ × List (String × ℤ × ℚ)) :=
  if c.cantidadUnidades = 0 then none
  else
    match promediosTipos (acumularTipos c.productos) with
    | none => none
    | some dets => some (c.valorTotal / (c.cantidadUnidades : ℚ), dets)

/-- Total on-hand quantity of the products of category `t`. -/
def sumCantTipo (ps : List Producto) (t : String) : ℤ :=
  ((ps.filter (fun p => p.tipo = t)).map Producto.cantidad).sum

/-- Total value of the products of category `t`. -/
def sumValorTipo (ps : List Producto) (t : String) : ℚ :=
  ((ps.filter (fun p => p.tipo = t)).map Producto.valorTotal).sum

/-!
Aliasing semantics of `Oferta.__init__(self, descripcion, codigos=[],
tipos=[])`.  The two default list objects are allocated once, when the
function is defined; every construction that omits the argument binds the
same list object.  We model list objects in a small heap addressed by
naturals; addresses 0 and 1 are the default `codigos` and `tipos` objects.
-/

namespace Aliasing

/-- The heap of Python list objects: address ↦ current contents. -/
structure EstadoPy where
  heap : List (ℕ × List String)
  sig : ℕ
deriving DecidableEq, Repr

/-- Read the list object at an address. -/
def leerLista (s : EstadoPy) (a : ℕ) : List String :=
  match s.heap.lookup a with
  | some l => l
  | none => []

/-- Overwrite the list object at an address. -/
def escribirLista (s : EstadoPy) (a : ℕ) (l : List String) : EstadoPy :=
  ⟨s.heap.map (fun e => if e.1 = a then (a, l) else e), s.sig⟩

/-- Address of the shared `codigos=[]` default object. -/
def codigosDefault : ℕ := 0

/-- Address of the shared `tipos=[]` default object. -/
def tiposDefault : ℕ := 1

/-- Module-load state: the two default list objects exist and are empty. -/
def estadoInicial : EstadoPy := ⟨[(0, []), (1, [])], 2⟩

/-- An `Oferta` object at reference level: its `codigos` and `tipos`
attributes hold references to list objects. -/
structure Oferta where
  descripcion : String
  codigos : ℕ
  tipos : ℕ
deriving DecidableEq, Repr

/-- `Oferta(descripcion)` with `codigos` and `tipos` omitted: the instance
stores references to the shared default objects; the heap is unchanged. -/
def mkOfertaDefault (s : EstadoPy) (d : String) : Oferta × EstadoPy :=
  (⟨d, codigosDefault, tiposDefault⟩, s)

/-- `Oferta(descripcion, codigos=…, tipos=…)` with explicit fresh list
literals: two new list objects are allocated. -/
def mkOfertaExplicita (s : EstadoPy) (d : String) (cs ts : List String) :
    Oferta × EstadoPy :=
  (⟨d, s.sig, s.sig + 1⟩,
   ⟨s.heap ++ [(s.sig, cs), (s.sig + 1, ts)], s.sig + 2⟩)

/-- `oferta.codigos.append(c)`: mutates the referenced list object. -/
def appendCodigo (s : EstadoPy) (o : Oferta) (c : String) : EstadoPy :=
  escribirLista s o.codigos (leerLista s o.codigos ++ [c])

/-- `Oferta.esAplicable` read through the heap. -/
def esAplicable (s : EstadoPy) (o : Oferta) (p : Producto)
    (_cantidad : ℤ) : Bool :=
  p.codigo ∈ leerLista s o.codigos || p.tipo ∈ leerLista s o.tipos

end Aliasing

/-!
Claim theorems.
-/

/-- C3 counterexample: with price 10 and quantity 5, `Oferta2x1.aplicar`
on an applicable offer returns 20, not the 40 the claim states
(`10 * (5 // 2) = 20`). -/
theorem oferta2x1_precio10_cantidad5_no_es_40 :
    (Oferta.dos_por_uno "2x1" [] ["gaseosa"]).esAplicable
        ⟨"1111", "n", 10, "gaseosa", 5⟩ 5 = true ∧
      (Oferta.dos_por_uno "2x1" [] ["gaseosa"]).aplicar
        ⟨"1111", "n", 10, "gaseosa", 5⟩ 5 ≠ 40 := by
  constructor
  · decide
  · norm_num [Oferta.aplicar, Oferta.esAplicable, Oferta.codigos, Oferta.tipos,
      Int.fdiv]

/-- C3 (amended): `Oferta2x1.aplicar(product, quantity)` returns
`product.precio * (quantity // 2)` when the offer is applicable to the
product and 0 otherwise; with price 10 and quantity 5 the discount is 20,
and with quantity 1 it is 0 even though the offer is applicable. -/
theorem oferta2x1_aplicar_spec :
    (∀ (d : String) (cs ts : List String) (p : Producto) (q : ℤ), 0 ≤ q →
      ((Oferta.dos_por_uno d cs ts).esAplicable p q = true →
        (Oferta.dos_por_uno d cs ts).aplicar p q =
          p.precio * ((q.fdiv 2 : ℤ) : ℚ)) ∧
      ((Oferta.dos_por_uno d cs ts).esAplicable p q = false →
        (Oferta.dos_por_uno d cs ts).aplicar p q = 0)) ∧
    (Oferta.dos_por_uno "2x1" [] ["gaseosa"]).aplicar
        ⟨"1111", "n", 10, "gaseosa", 5⟩ 5 = 20 ∧
    (Oferta.dos_por_uno "2x1" [] ["gaseosa"]).esAplicable
        ⟨"1111", "n", 10, "gaseosa", 5⟩ 1 = true ∧
    (Oferta.dos_por_uno "2x1" [] ["gaseosa"]).aplicar
        ⟨"1111", "n", 10, "gaseosa", 5⟩ 1 = 0 := by
  refine ⟨fun d cs ts p q _h => ⟨fun ha => ?_, fun hn => ?_⟩, ?_, ?_, ?_⟩
  · simp [Oferta.aplicar, ha]
  · simp [Oferta.aplicar, hn]
  · norm_num [Oferta.aplicar, Oferta.esAplicable, Oferta.codigos, Oferta.tipos,
      Int.fdiv]
  · decide
  · norm_num [Oferta.aplicar, Oferta.esAplicable, Oferta.codigos, Oferta.tipos,
      Int.fdiv]

/-- C3 witness: the general part of `oferta2x1_aplicar_spec` applied at a
concrete applicable offer, product and quantity. -/
theorem oferta2x1_aplicar_spec_witness :
    (Oferta.dos_por_uno "2x1" [] ["g"]).aplicar ⟨"2222", "n", 30, "g", 1⟩ 7 =
      (30 : ℚ) * ((Int.fdiv 7 2 : ℤ) : ℚ) := by
  have h := (oferta2x1_aplicar_spec.1 "2x1" [] ["g"] ⟨"2222", "n", 30, "g", 1⟩ 7
    (by decide)).1 (by decide)
  simpa using h

/-- C4: `OfertaDescuento.aplicar(product, quantity)` returns
`product.precio * quantity * (descuento / 100)` when the offer is
applicable to the product and 0 otherwise; with price 100, quantity 3 and
percentage 20 the discount is 60. -/
theorem ofertaDescuento_aplicar_spec :
    (∀ (d : String) (pct : ℚ) (cs ts : List String) (p : Producto) (q : ℤ),
      ((Oferta.descuento d pct cs ts).esAplicable p q = true →
        (Oferta.descuento d pct cs ts).aplicar p q =
          p.precio * (q : ℚ) * (pct / 100)) ∧
      ((Oferta.descuento d pct cs ts).esAplicable p q = false →
        (Oferta.descuento d pct cs ts).aplicar p q = 0)) ∧
    (Oferta.descuento "20pct" 20 [] ["gaseosa"]).aplicar
        ⟨"1111", "n", 100, "gaseosa", 3⟩ 3 = 60 := by
  refine ⟨fun d pct cs ts p q => ⟨fun ha => ?_, fun hn => ?_⟩, ?_⟩
  · simp [Oferta.aplicar, ha]
  · simp [Oferta.aplicar, hn]
  · norm_num [Oferta.aplicar, Oferta.esAplicable, Oferta.codigos, Oferta.tipos]

/-- C4 witness: the general part of `ofertaDescuento_aplicar_spec` applied
at a concrete non-applicable product. -/
theorem ofertaDescuento_aplicar_spec_witness :
    (Oferta.descuento "d" 50 ["0001"] []).aplicar ⟨"2222", "n", 30, "g", 1⟩ 4
      = 0 :=
  (ofertaDescuento_aplicar_spec.1 "d" 50 ["0001"] [] ⟨"2222", "n", 30, "g", 1⟩
    4).2 (by decide)

/-- The offer scan returns `none` iff no offer in the list is applicable. -/
theorem buscarOfertaAux_eq_none_iff (l : List Oferta) (p : Producto) (q : ℤ) :
    buscarOfertaAux l p q = none ↔ ∀ o ∈ l, o.esAplicable p q = false := by
  induction l with
  | nil => simp [buscarOfertaAux]
  | cons o rest ih =>
      by_cases h : o.esAplicable p q = true
      · simp [buscarOfertaAux, h]
      · rw [Bool.not_eq_true] at h
        simp [buscarOfertaAux, h, ih]

/-- If every offer before `o` is inapplicable and `o` is applicable, the
scan returns `o`. -/
theorem buscarOfertaAux_first (l1 l2 : List Oferta) (o : Oferta)
    (p : Producto) (q : ℤ) (h1 : ∀ o' ∈ l1, o'.esAplicable p q = false)
    (h2 : o.esAplicable p q = true) :
    buscarOfertaAux (l1 ++ o :: l2) p q = some o := by
  induction l1 with
  | nil => simp [buscarOfertaAux, h2]
  | cons o' rest ih =>
      have h' : o'.esAplicable p q = false := h1 o' (by simp)
      simp only [List.cons_append, buscarOfertaAux, h']
      simp only [Bool.false_eq_true, if_false]
      exact ih fun x hx => h1 x (by simp [hx])

/-- C1: `Catalogo.buscarOferta` scans the registered offers in insertion
order and returns the first applicable one (so with two applicable offers
the one registered first wins); `Catalogo.calcularDescuento` returns 0
when no offer is applicable and the first applicable offer's `aplicar`
otherwise. -/
theorem catalogo_buscarOferta_primera_aplicable :
    (∀ (c : Catalogo) (p : Producto) (q : ℤ),
      (c.buscarOferta p q = none ↔
        ∀ o ∈ c.ofertas, o.esAplicable p q = false) ∧
      (c.buscarOferta p q = none → c.calcularDescuento p q = 0) ∧
      (∀ (l1 : List Oferta) (o : Oferta) (l2 : List Oferta),
        c.ofertas = l1 ++ o :: l2 →
        (∀ o' ∈ l1, o'.esAplicable p q = false) →
        o.esAplicable p q = true →
        c.buscarOferta p q = some o ∧
          c.calcularDescuento p q = o.aplicar p q)) ∧
    Catalogo.buscarOferta
        (Catalogo.registrarOferta
          (Catalogo.registrarOferta (Catalogo.mk [] [])
            (.descuento "primera" 10 [] ["gaseosa"]))
          (.dos_por_uno "segunda" [] ["gaseosa"]))
        ⟨"1111", "n", 100, "gaseosa", 4⟩ 4 =
      some (.descuento "primera" 10 [] ["gaseosa"]) := by
  refine ⟨fun c p q => ⟨buscarOfertaAux_eq_none_iff c.ofertas p q, ?_, ?_⟩, ?_⟩
  · intro h
    simp [Catalogo.calcularDescuento, h]
  · intro l1 o l2 hsplit h1 h2
    have hfind : c.buscarOferta p q = some o := by
      simpa [Catalogo.buscarOferta, hsplit] using
        buscarOfertaAux_first l1 l2 o p q h1 h2
    exact ⟨hfind, by simp [Catalogo.calcularDescuento, hfind]⟩
  · rfl

/-- C1 witness: in a catalog with two offers both applicable to the same
product, resolution returns the first-registered one and the discount is
that offer's `aplicar`. -/
theorem catalogo_buscarOferta_primera_aplicable_witness :
    (Catalogo.mk [] [.descuento "primera" 10 [] ["gaseosa"],
        .dos_por_uno "segunda" [] ["gaseosa"]]).buscarOferta
      ⟨"1111", "n", 100, "gaseosa", 4⟩ 4 =
        some (.descuento "primera" 10 [] ["gaseosa"]) ∧
    (Catalogo.mk [] [.descuento "primera" 10 [] ["gaseosa"],
        .dos_por_uno "segunda" [] ["gaseosa"]]).calcularDescuento
      ⟨"1111", "n", 100, "gaseosa", 4⟩ 4 =
        (Oferta.descuento "primera" 10 [] ["gaseosa"]).aplicar
          ⟨"1111", "n", 100, "gaseosa", 4⟩ 4 :=
  (catalogo_buscarOferta_primera_aplicable.1
      (Catalogo.mk [] [.descuento "primera" 10 [] ["gaseosa"],
        .dos_por_uno "segunda" [] ["gaseosa"]])
      ⟨"1111", "n", 100, "gaseosa", 4⟩ 4).2.2
    [] (.descuento "primera" 10 [] ["gaseosa"])
    [.dos_por_uno "segunda" [] ["gaseosa"]] rfl (by simp) (by decide)

/-- The product scan returns `none` iff no product's code matches. -/
theorem buscarAux_eq_none_iff (l : List Producto) (co : String) :
    buscarAux l co = none ↔ ∀ p ∈ l, p.codigo ≠ co := by
  induction l with
  | nil => simp [buscarAux]
  | cons p rest ih =>
      by_cases h : p.codigo = co
      · simp [buscarAux, h]
      · simp [buscarAux, h, ih]

/-- If the scan returns a product, that product is the earliest one in the
list whose code matches. -/
theorem buscarAux_eq_some (l : List Producto) (co : String) (r : Producto)
    (h : buscarAux l co = some r) :
    ∃ l1 l2, l = l1 ++ r :: l2 ∧ r.codigo = co ∧ ∀ x ∈ l1, x.codigo ≠ co := by
  induction l with
  | nil => simp [buscarAux] at h
  | cons p rest ih =>
      by_cases hp : p.codigo = co
      · rw [buscarAux, if_pos hp, Option.some_inj] at h
        exact ⟨[], rest, by simp [h], h ▸ hp, by simp⟩
      · rw [buscarAux, if_neg hp] at h
        obtain ⟨l1, l2, heq, hco, hfst⟩ := ih h
        exact ⟨p :: l1, l2, by rw [heq, List.cons_append], hco,
          by simpa [hp] using hfst⟩

/-- C10: `Catalogo.agregar` appends unconditionally (no uniqueness check,
duplicate codes allowed, the count always grows by one), and
`Catalogo.buscar` returns the earliest-inserted product with the given
code, or `None` when no product has that code. -/
theorem catalogo_agregar_buscar_spec :
    (∀ (c : Catalogo) (p : Producto) (co : String),
      (c.agregar p).productos = c.productos ++ [p] ∧
      (c.agregar p).cantidadProductos = c.cantidadProductos + 1 ∧
      (c.buscar co = none ↔ ∀ x ∈ c.productos, x.codigo ≠ co) ∧
      (∀ r, c.buscar co = some r →
        ∃ l1 l2, c.productos = l1 ++ r :: l2 ∧ r.codigo = co ∧
          ∀ x ∈ l1, x.codigo ≠ co)) ∧
    ((Catalogo.mk [⟨"1111", "a", 10, "g", 1⟩] []).agregar
        ⟨"1111", "b", 20, "g", 2⟩).cantidadProductos = 2 ∧
    (⟨"1111", "a", 10, "g", 1⟩ : Producto) ∈
      ((Catalogo.mk [⟨"1111", "a", 10, "g", 1⟩] []).agregar
        ⟨"1111", "b", 20, "g", 2⟩).productos ∧
    (⟨"1111", "b", 20, "g", 2⟩ : Producto) ∈
      ((Catalogo.mk [⟨"1111", "a", 10, "g", 1⟩] []).agregar
        ⟨"1111", "b", 20, "g", 2⟩).productos ∧
    ((Catalogo.mk [⟨"1111", "a", 10, "g", 1⟩] []).agregar
        ⟨"1111", "b", 20, "g", 2⟩).buscar "1111" =
      some ⟨"1111", "a", 10, "g", 1⟩ ∧
    (Catalogo.mk [⟨"1111", "a", 10, "g", 1⟩] []).buscar "9999" = none := by
  refine ⟨fun c p co => ⟨rfl, ?_, buscarAux_eq_none_iff c.productos co,
    fun r => buscarAux_eq_some c.productos co r⟩, ?_, ?_, ?_, ?_, ?_⟩
  · simp [Catalogo.agregar, Catalogo.cantidadProductos]
  · rfl
  · simp [Catalogo.agregar]
  · simp [Catalogo.agregar]
  · rfl
  · rfl

/-- C10 witness: searching a two-product catalog whose products share a
code returns the earliest-inserted one, via the general theorem. -/
theorem catalogo_agregar_buscar_spec_witness :
    ∃ l1 l2, (Catalogo.mk [⟨"1111", "a", 10, "g", 1⟩,
        ⟨"1111", "b", 20, "g", 2⟩] []).productos =
        l1 ++ (⟨"1111", "a", 10, "g", 1⟩ : Producto) :: l2 ∧
      (Producto.mk "1111" "a" 10 "g" 1).codigo = "1111" ∧
      ∀ x ∈ l1, x.codigo ≠ "1111" :=
  (catalogo_agregar_buscar_spec.1
      (Catalogo.mk [⟨"1111", "a", 10, "g", 1⟩, ⟨"1111", "b", 20, "g", 2⟩] [])
      ⟨"1111", "a", 10, "g", 1⟩ "1111").2.2.2
    ⟨"1111", "a", 10, "g", 1⟩ rfl
/-- When the product has no line yet, `Factura.agregar` appends one. -/
theorem agregarItem_not_mem (items : List (RefProducto × ℤ))
    (p : RefProducto) (c : ℤ) (h : p ∉ items.map Prod.fst) :
    Factura.agregarItem items p c = items ++ [(p, c)] := by
  induction items with
  | nil => rfl
  | cons it rest ih =>
      have h1 : it.1 ≠ p := fun he => h (by simp [← he])
      have h2 : p ∉ rest.map Prod.fst := fun he => h (by simp [he])
      simp [Factura.agregarItem, h1, ih h2]

/-- When the product already has a line, `Factura.agregar` adds the
quantity to that line in place. -/
theorem agregarItem_mem (l1 : List (RefProducto × ℤ)) (p : RefProducto)
    (q c : ℤ) (l2 : List (RefProducto × ℤ)) (h : p ∉ l1.map Prod.fst) :
    Factura.agregarItem (l1 ++ (p, q) :: l2) p c = l1 ++ (p, q + c) :: l2 := by
  induction l1 with
  | nil => simp [Factura.agregarItem]
  | cons it rest ih =>
      have h1 : it.1 ≠ p := fun he => h (by simp [← he])
      have h2 : p ∉ rest.map Prod.fst := fun he => h (by simp [he])
      simp [Factura.agregarItem, h1, ih h2]

/-- `Factura.agregar` never creates a second line for a present product:
the line count grows only when the product was absent. -/
theorem agregarItem_length (items : List (RefProducto × ℤ))
    (p : RefProducto) (c : ℤ) :
    (Factura.agregarItem items p c).length =
      (if p ∈ items.map Prod.fst then items.length else items.length + 1) := by
  induction items with
  | nil => simp [Factura.agregarItem]
  | cons it rest ih =>
      by_cases h1 : it.1 = p
      · simp [Factura.agregarItem, h1]
      · have h1' : p ≠ it.1 := fun he => h1 he.symm
        simp only [Factura.agregarItem, h1, if_false, List.length_cons, ih,
          List.map_cons, List.mem_cons]
        by_cases h2 : p ∈ rest.map Prod.fst
        · simp [h2, h1']
        · simp [h2, h1']

/-- C6: `Factura.agregar` merges repeated products: when the product is
not yet on the invoice a new line is appended at the end; when it already
has a line, that line's quantity grows by the given amount, in place, and
the number of lines does not change.  Adding the same product with
quantities 2 then 3 yields the single line with quantity 5. -/
theorem factura_agregar_fusiona :
    (∀ (items : List (RefProducto × ℤ)) (p : RefProducto) (c : ℤ),
      (p ∉ items.map Prod.fst →
        Factura.agregarItem items p c = items ++ [(p, c)]) ∧
      (∀ l1 q l2, items = l1 ++ (p, q) :: l2 → p ∉ l1.map Prod.fst →
        Factura.agregarItem items p c = l1 ++ (p, q + c) :: l2) ∧
      (Factura.agregarItem items p c).length =
        (if p ∈ items.map Prod.fst then items.length else items.length + 1)) ∧
    Factura.agregarItem (Factura.agregarItem [] 0 2) 0 3 = [(0, 5)] := by
  refine ⟨fun items p c => ⟨agregarItem_not_mem items p c, ?_,
    agregarItem_length items p c⟩, rfl⟩
  intro l1 q l2 heq hnot
  rw [heq]
  exact agregarItem_mem l1 p q c l2 hnot

/-- C6 witness: the merge branch of `factura_agregar_fusiona` applied to a
one-line invoice receiving the same product again. -/
theorem factura_agregar_fusiona_witness :
    Factura.agregarItem [(4, 2)] 4 3 = [] ++ (4, 2 + 3) :: [] :=
  (factura_agregar_fusiona.1 [(4, 2)] 4 3).2.1 [] 2 [] rfl (by simp)

/-- Unfolding of one construction step in the number sequence. -/
theorem facturasSeq_succ (c : ℤ) (m : ℕ) :
    facturasSeq c (m + 1) =
      ((c + 1) :: (facturasSeq (c + 1) m).1, (facturasSeq (c + 1) m).2) := by
  rw [facturasSeq]
  rfl

/-- The numbers assigned to `n` sequential invoice constructions starting
from counter `c` are `c+1, …, c+n`. -/
theorem facturasSeq_fst (n : ℕ) : ∀ c : ℤ,
    (facturasSeq c n).1 = (List.range n).map (fun i : ℕ => c + (i : ℤ) + 1) := by
  induction n with
  | zero => intro c; rfl
  | succ m ih =>
      intro c
      rw [facturasSeq_succ, List.range_succ_eq_map]
      simp only [List.map_cons, List.map_map, Nat.cast_zero, ih (c + 1)]
      refine congrArg₂ _ (by ring) (List.map_congr_left fun i _ => ?_)
      simp only [Function.comp_apply, Nat.cast_succ]
      ring

/-- After `n` sequential constructions the counter stands at `c + n`. -/
theorem facturasSeq_snd (n : ℕ) : ∀ c : ℤ,
    (facturasSeq c n).2 = c + (n : ℤ) := by
  induction n with
  | zero => intro c; simp [facturasSeq]
  | succ m ih =>
      intro c
      rw [facturasSeq_succ]
      simp only [ih (c + 1), Nat.cast_succ]
      ring

/-- A nonempty number sequence starts at `c + 1`. -/
theorem facturasSeq_head (m : ℕ) (c : ℤ) :
    (facturasSeq c (m + 1)).1.head? = some (c + 1) := by
  rw [facturasSeq_succ]
  rfl

/-- Consecutive assigned numbers are contiguous. -/
theorem facturasSeq_chain (n : ℕ) : ∀ c : ℤ,
    List.Chain' (fun a b => b = a + 1) (facturasSeq c n).1 := by
  induction n with
  | zero => intro c; simp [facturasSeq]
  | succ m ih =>
      intro c
      rw [facturasSeq_succ]
      refine List.chain'_cons'.mpr ⟨?_, ih (c + 1)⟩
      intro b hb
      rcases m with _ | k
      · simp [facturasSeq] at hb
      · rw [facturasSeq_head k (c + 1)] at hb
        simp only [Option.mem_def, Option.some.injEq] at hb
        omega

/-- C5: invoice numbering is a monotonic counter: `n` sequential
constructions from counter state `c` assign the strictly increasing,
contiguous numbers `c+1, …, c+n` (each construction increments the
counter by one and assigns its new value), and after the reset operation
`ultimaFactura(V)` the next construction assigns number `V+1`. -/
theorem factura_numeracion_contador :
    ∀ (c V : ℤ) (n : ℕ),
      (facturasSeq c n).1 =
        (List.range n).map (fun i : ℕ => c + (i : ℤ) + 1) ∧
      (facturasSeq c n).2 = c + (n : ℤ) ∧
      (facturasSeq c n).1.length = n ∧
      List.Chain' (fun a b => b = a + 1) (facturasSeq c n).1 ∧
      facturaNueva c = (c + 1, c + 1) ∧
      (facturaNueva (Factura.ultimaFactura c V)).1 = V + 1 :=
  fun c V n =>
    ⟨facturasSeq_fst n c, facturasSeq_snd n c,
     by rw [facturasSeq_fst n c]; simp,
     facturasSeq_chain n c, rfl, rfl⟩

/-- C2: the default `codigos=[]` and `tipos=[]` of `Oferta.__init__` are
shared mutable objects: two offers constructed with the defaults omitted
reference the same list objects, so appending a product code through the
first offer makes the second offer applicable to that product — refuting
the claim that each default-constructed instance owns independent
containers.  Before the mutation the second offer is applicable to
nothing, as the claim's default-empty clause states. -/
theorem oferta_codigos_default_compartidos :
    (Aliasing.mkOfertaDefault Aliasing.estadoInicial "primera").1.codigos =
      (Aliasing.mkOfertaDefault
        (Aliasing.mkOfertaDefault Aliasing.estadoInicial "primera").2
        "segunda").1.codigos ∧
    Aliasing.esAplicable
        (Aliasing.mkOfertaDefault
          (Aliasing.mkOfertaDefault Aliasing.estadoInicial "primera").2
          "segunda").2
        (Aliasing.mkOfertaDefault
          (Aliasing.mkOfertaDefault Aliasing.estadoInicial "primera").2
          "segunda").1
        ⟨"1111", "n", 10, "g", 1⟩ 1 = false ∧
    Aliasing.esAplicable
        (Aliasing.appendCodigo
          (Aliasing.mkOfertaDefault
            (Aliasing.mkOfertaDefault Aliasing.estadoInicial "primera").2
            "segunda").2
          (Aliasing.mkOfertaDefault Aliasing.estadoInicial "primera").1
          "1111")
        (Aliasing.mkOfertaDefault
          (Aliasing.mkOfertaDefault Aliasing.estadoInicial "primera").2
          "segunda").1
        ⟨"1111", "n", 10, "g", 1⟩ 1 = true := by
  decide

/-- Whether an `Except` result is an error (a raised exception). -/
def esError {α : Type} : Except String α → Bool
  | .error _ => true
  | .ok _ => false

/-- C7: every field setter of `Producto` and the `cuit` setter of
`Cliente` raise exactly on out-of-bounds values, and a successful
assignment changes only the targeted field — a failed one returns no
mutated entity at all, so the previous valid state is untouched.
Boundary inputs behave as the claim's bounds state. -/
theorem validacion_campos_spec :
    (∀ (p : Producto) (s : String),
      esError (p.setCodigo s) = !validCodigo s ∧
      ∀ q, p.setCodigo s = .ok q → q = { p with codigo := s }) ∧
    (∀ (p : Producto) (s : String),
      esError (p.setNombre s) = !validNombre s ∧
      ∀ q, p.setNombre s = .ok q → q = { p with nombre := s }) ∧
    (∀ (p : Producto) (v : ℚ),
      esError (p.setPrecio v) = !validPrecio v ∧
      ∀ q, p.setPrecio v = .ok q → q = { p with precio := v }) ∧
    (∀ (p : Producto) (s : String),
      esError (p.setTipo s) = !validTipo s ∧
      ∀ q, p.setTipo s = .ok q → q = { p with tipo := s }) ∧
    (∀ (p : Producto) (v : ℤ),
      esError (p.setCantidad v) = !validCantidad v ∧
      ∀ q, p.setCantidad v = .ok q → q = { p with cantidad := v }) ∧
    (∀ (cl : Cliente) (s : String),
      esError (cl.setCuit s) = !validCuit s ∧
      ∀ cl', cl.setCuit s = .ok cl' → cl' = { cl with cuit := s }) ∧
    validCodigo "1234" = true ∧ validCodigo "123" = false ∧
    validCodigo "12a4" = false ∧ validCodigo "12345" = false ∧
    validNombre "" = false ∧ validNombre "a" = true ∧
    validPrecio 9 = false ∧ validPrecio 10 = true ∧
    validPrecio 10000 = true ∧ validPrecio 10001 = false ∧
    validTipo "" = true ∧ validTipo "abcdefghijklmnopqrstu" = false ∧
    validCantidad (-1) = false ∧ validCantidad 0 = true ∧
    validCantidad 1000 = true ∧ validCantidad 1001 = false ∧
    validCuit "20-12345678-9" = true ∧ validCuit "20-1234567-89" = false ∧
    validCuit "2A-12345678-9" = false ∧ validCuit "20-123456789" = false := by
  refine ⟨?_, ?_, ?_, ?_, ?_, ?_, ?_⟩
  · intro p s
    constructor
    · simp only [Producto.setCodigo]
      split <;> simp_all [esError]
    · intro q h
      simp only [Producto.setCodigo] at h
      split at h <;> simp_all
  · intro p s
    constructor
    · simp only [Producto.setNombre]
      split <;> simp_all [esError]
    · intro q h
      simp only [Producto.setNombre] at h
      split at h <;> simp_all
  · intro p v
    constructor
    · simp only [Producto.setPrecio]
      split <;> simp_all [esError]
    · intro q h
      simp only [Producto.setPrecio] at h
      split at h <;> simp_all
  · intro p s
    constructor
    · simp only [Producto.setTipo]
      split <;> simp_all [esError]
    · intro q h
      simp only [Producto.setTipo] at h
      split at h <;> simp_all
  · intro p v
    constructor
    · simp only [Producto.setCantidad]
      split <;> simp_all [esError]
    · intro q h
      simp only [Producto.setCantidad] at h
      split at h <;> simp_all
  · intro cl s
    constructor
    · simp only [Cliente.setCuit]
      split <;> simp_all [esError]
    · intro cl' h
      simp only [Cliente.setCuit] at h
      split at h <;> simp_all
  · refine ⟨by decide, by decide, by decide, by decide, by decide, by decide,
      ?_, ?_, ?_, ?_, by decide, by decide, by decide, by decide, by decide,
      by decide, by decide, by decide, by decide, by decide⟩
    · norm_num [validPrecio]
    · norm_num [validPrecio]
    · norm_num [validPrecio]
    · norm_num [validPrecio]

/-- C7 witness: a concrete out-of-bounds price assignment raises and a
concrete in-bounds one succeeds changing only the price, via the general
theorem. -/
theorem validacion_campos_spec_witness :
    esError ((Producto.mk "1111" "n" 10 "g" 1).setPrecio 5) =
        !validPrecio 5 ∧
      ((Producto.mk "1111" "n" 10 "g" 1).setPrecio 20 =
          .ok ⟨"1111", "n", 20, "g", 1⟩ →
        (⟨"1111", "n", 20, "g", 1⟩ : Producto) =
          { Producto.mk "1111" "n" 10 "g" 1 with precio := 20 }) :=
  ⟨(validacion_campos_spec.2.2.1 (Producto.mk "1111" "n" 10 "g" 1) 5).1,
   (validacion_campos_spec.2.2.1 (Producto.mk "1111" "n" 10 "g" 1) 20).2
     ⟨"1111", "n", 20, "g", 1⟩⟩

/-- Re-running the constructor on the fields of an already-valid product
succeeds and reproduces the product. -/
theorem mkProducto_of_valid (p : Producto) (h : validProducto p = true) :
    mkProducto p.codigo p.nombre p.precio p.tipo p.cantidad = .ok p := by
  simp only [validProducto, Bool.and_eq_true] at h
  obtain ⟨⟨⟨⟨h1, h2⟩, h3⟩, h4⟩, h5⟩ := h
  simp [mkProducto, h1, h2, h3, h4, h5]

/-- Reading back the rows written for a list of valid products reproduces
the list with no error. -/
theorem leerFilas_map_valid (ps : List Producto)
    (h : ∀ p ∈ ps, validProducto p = true) :
    leerFilas (ps.map fun p => (p.codigo, p.nombre, p.precio, p.tipo,
      p.cantidad)) = (ps, false) := by
  induction ps with
  | nil => rfl
  | cons p rest ih =>
      have hp := mkProducto_of_valid p (h p (by simp))
      have hrest := ih fun x hx => h x (by simp [hx])
      simp [leerFilas, hp, hrest]

/-- C8: saving a catalog of valid products and loading the file back
reproduces the catalog: the product list has the same length and, at each
position, the same code, name, price, category and quantity, and no load
error occurs. -/
theorem catalogo_guardar_leer_roundtrip (c : Catalogo)
    (h : ∀ p ∈ c.productos, validProducto p = true) :
    Catalogo.leer c (Catalogo.guardar c) = (c, false) := by
  simp only [Catalogo.leer, Catalogo.guardar, leerFilas_map_valid c.productos h]

/-- C8 witness: the round trip on a concrete two-product catalog. -/
theorem catalogo_guardar_leer_roundtrip_witness :
    Catalogo.leer
        (Catalogo.mk [⟨"0001", "Coca Cola", (25 : ℚ) / 2, "gaseosa", 100⟩,
          ⟨"0003", "Sonrisa", 50, "galleta", 30⟩] [])
        (Catalogo.guardar
          (Catalogo.mk [⟨"0001", "Coca Cola", (25 : ℚ) / 2, "gaseosa", 100⟩,
            ⟨"0003", "Sonrisa", 50, "galleta", 30⟩] [])) =
      (Catalogo.mk [⟨"0001", "Coca Cola", (25 : ℚ) / 2, "gaseosa", 100⟩,
        ⟨"0003", "Sonrisa", 50, "galleta", 30⟩] [], false) :=
  catalogo_guardar_leer_roundtrip
    (Catalogo.mk [⟨"0001", "Coca Cola", (25 : ℚ) / 2, "gaseosa", 100⟩,
      ⟨"0003", "Sonrisa", 50, "galleta", 30⟩] [])
    (by
      intro p hp
      simp only [List.mem_cons, List.not_mem_nil, or_false] at hp
      rcases hp with rfl | rfl
      · norm_num [validProducto, validCodigo, validNombre, validPrecio,
          validTipo, validCantidad, pyIsDigit]
        decide
      · norm_num [validProducto, validCodigo, validNombre, validPrecio,
          validTipo, validCantidad, pyIsDigit]
        decide)

/-- Lookup of a category in the accumulator of `informe` (Python
`tipos[t]`). -/
def lookupTipo : List (String × ℤ × ℚ) → String → Option (ℤ × ℚ)
  | [], _ => none
  | e :: rest, t => if e.1 = t then some e.2 else lookupTipo rest t

/-- Filtered quantity sum over a cons cell. -/
theorem sumCantTipo_cons (p : Producto) (rest : List Producto) (t : String) :
    sumCantTipo (p :: rest) t =
      (if p.tipo = t then p.cantidad + sumCantTipo rest t
       else sumCantTipo rest t) := by
  simp only [sumCantTipo, List.filter_cons]
  split
  · next h => simp_all
  · next h => simp_all

/-- Filtered value sum over a cons cell. -/
theorem sumValorTipo_cons (p : Producto) (rest : List Producto) (t : String) :
    sumValorTipo (p :: rest) t =
      (if p.tipo = t then p.valorTotal + sumValorTipo rest t
       else sumValorTipo rest t) := by
  simp only [sumValorTipo, List.filter_cons]
  split
  · next h => simp_all
  · next h => simp_all

/-- Effect of one upsert step on a category lookup. -/
theorem lookupTipo_agregarTipoAcc (acc : List (String × ℤ × ℚ))
    (p : Producto) (t : String) :
    lookupTipo (agregarTipoAcc acc p) t =
      (if p.tipo = t then
        some ((lookupTipo acc t).elim (p.cantidad, p.valorTotal)
          (fun uv => (uv.1 + p.cantidad, uv.2 + p.valorTotal)))
       else lookupTipo acc t) := by
  induction acc with
  | nil =>
      by_cases h : p.tipo = t <;> simp [agregarTipoAcc, lookupTipo, h]
  | cons e rest ih =>
      by_cases he : e.1 = p.tipo
      · by_cases ht : p.tipo = t
        · have : e.1 = t := he.trans ht
          simp [agregarTipoAcc, lookupTipo, he, ht, this]
        · have : e.1 ≠ t := fun hc => ht (he.symm.trans hc)
          simp [agregarTipoAcc, lookupTipo, he, ht, this]
      · by_cases ht : e.1 = t
        · have h1 : p.tipo ≠ t := fun hc => he (ht.trans hc.symm)
          have h2 : t ≠ p.tipo := fun hc => h1 hc.symm
          simp [agregarTipoAcc, lookupTipo, he, ht, h1, h2]
        · simp [agregarTipoAcc, lookupTipo, he, ht, ih]

/-- Lookup after folding the grouping step over a product list: an
existing entry grows by the category's sums over the list; a fresh
category appears exactly when some product has it, carrying its sums. -/
theorem lookupTipo_foldl (ps : List Producto) :
    ∀ (acc : List (String × ℤ × ℚ)) (t : String),
      lookupTipo (ps.foldl agregarTipoAcc acc) t =
        (match lookupTipo acc t with
         | some uv =>
             some (uv.1 + sumCantTipo ps t, uv.2 + sumValorTipo ps t)
         | none =>
             if t ∈ ps.map Producto.tipo then
               some (sumCantTipo ps t, sumValorTipo ps t)
             else none) := by
  induction ps with
  | nil =>
      intro acc t
      rcases h : lookupTipo acc t with _ | ⟨u, v⟩ <;>
        simp [h, sumCantTipo, sumValorTipo]
  | cons p rest ih =>
      intro acc t
      rw [List.foldl_cons, ih (agregarTipoAcc acc p) t,
        lookupTipo_agregarTipoAcc acc p t]
      by_cases hp : p.tipo = t
      · rcases h : lookupTipo acc t with _ | ⟨u, v⟩
        · simp [hp, h, sumCantTipo_cons, sumValorTipo_cons]
        · simp [hp, h, sumCantTipo_cons, sumValorTipo_cons, Prod.ext_iff]
          constructor <;> ring
      · have h2 : t ≠ p.tipo := fun hc => hp hc.symm
        rcases h : lookupTipo acc t with _ | ⟨u, v⟩
        · simp [hp, h2, h, sumCantTipo_cons, sumValorTipo_cons]
        · simp [hp, h2, h, sumCantTipo_cons, sumValorTipo_cons]

/-- The keys of the accumulator after one upsert: unchanged when the
category is present, extended by it at the end otherwise. -/
theorem agregarTipoAcc_keys (acc : List (String × ℤ × ℚ)) (p : Producto) :
    (agregarTipoAcc acc p).map Prod.fst =
      (if p.tipo ∈ acc.map Prod.fst then acc.map Prod.fst
       else acc.map Prod.fst ++ [p.tipo]) := by
  induction acc with
  | nil => simp [agregarTipoAcc]
  | cons e rest ih =>
      by_cases he : e.1 = p.tipo
      · simp [agregarTipoAcc, he]
      · have h2 : p.tipo ≠ e.1 := fun hc => he hc.symm
        simp only [agregarTipoAcc, he, if_false, List.map_cons, ih]
        by_cases hm : p.tipo ∈ rest.map Prod.fst <;> simp [hm, h2]

/-- Upserting preserves distinctness of the accumulator's keys. -/
theorem agregarTipoAcc_nodup (acc : List (String × ℤ × ℚ)) (p : Producto)
    (h : (acc.map Prod.fst).Nodup) :
    ((agregarTipoAcc acc p).map Prod.fst).Nodup := by
  rw [agregarTipoAcc_keys]
  by_cases hm : p.tipo ∈ acc.map Prod.fst
  · simpa [hm] using h
  · simp only [hm, if_false]
    refine List.Nodup.append h (List.nodup_singleton _) ?_
    intro x hx hy
    simp only [List.mem_singleton] at hy
    exact hm (hy ▸ hx)

/-- The keys of the grouping accumulator stay distinct over the fold. -/
theorem acumularTipos_nodup (ps : List Producto) :
    ∀ acc : List (String × ℤ × ℚ), (acc.map Prod.fst).Nodup →
      (((ps.foldl agregarTipoAcc acc)).map Prod.fst).Nodup := by
  induction ps with
  | nil => intro acc h; simpa using h
  | cons p rest ih =>
      intro acc h
      exact ih (agregarTipoAcc acc p) (agregarTipoAcc_nodup acc p h)

/-- In a distinct-key accumulator, lookup of an entry's key returns that
entry's data. -/
theorem lookupTipo_of_mem (l : List (String × ℤ × ℚ))
    (e : String × ℤ × ℚ) (hmem : e ∈ l) (h : (l.map Prod.fst).Nodup) :
    lookupTipo l e.1 = some e.2 := by
  induction l with
  | nil => simp at hmem
  | cons f rest ih =>
      rcases List.mem_cons.mp hmem with rfl | hrest
      · simp [lookupTipo]
      · have hf : f.1 ≠ e.1 := by
          intro hc
          have hmm : e.1 ∈ rest.map Prod.fst :=
            List.mem_map_of_mem Prod.fst hrest
          rw [List.map_cons, List.nodup_cons] at h
          exact h.1 (hc ▸ hmm)
        have hnd : (rest.map Prod.fst).Nodup := by
          rw [List.map_cons, List.nodup_cons] at h
          exact h.2
        simp [lookupTipo, hf, ih hrest hnd]

/-- A successful lookup exhibits an entry of the accumulator. -/
theorem mem_of_lookupTipo (l : List (String × ℤ × ℚ)) (t : String)
    (x : ℤ × ℚ) (h : lookupTipo l t = some x) : (t, x) ∈ l := by
  induction l with
  | nil => simp [lookupTipo] at h
  | cons e rest ih =>
      by_cases he : e.1 = t
      · rw [lookupTipo, if_pos he, Option.some_inj] at h
        have : (t, x) = e := by
          rw [← he, ← h]
        simp [this]
      · rw [lookupTipo, if_neg he] at h
        simp [ih h]

/-- Characterisation of the grouping accumulator of `informe`: a category
is present iff some product carries it, and its entry holds the category's
quantity and value sums. -/
theorem lookupTipo_acumularTipos (ps : List Producto) (t : String) :
    lookupTipo (acumularTipos ps) t =
      (if t ∈ ps.map Producto.tipo then
        some (sumCantTipo ps t, sumValorTipo ps t)
       else none) := by
  rw [acumularTipos, lookupTipo_foldl ps [] t]
  rfl

/-- The per-category loop of `informe` raises iff some accumulated
category has unit count zero. -/
theorem promediosTipos_eq_none_iff (l : List (String × ℤ × ℚ)) :
    promediosTipos l = none ↔ ∃ e ∈ l, e.2.1 = 0 := by
  induction l with
  | nil => simp [promediosTipos]
  | cons e rest ih =>
      rcases e with ⟨t, u, v⟩
      by_cases hu : u = 0
      · simp [promediosTipos, hu]
      · rcases h : promediosTipos rest with _ | r
        · rw [h] at ih
          simp only [promediosTipos, hu, if_neg, h]
          simp only [true_iff] at ih
          simp [ih, hu]
        · rw [h] at ih
          simp only [promediosTipos, hu, if_neg, h]
          have ih' : ∀ f ∈ rest, ¬ f.2.1 = 0 := fun f hf hf0 =>
            Option.noConfusion (ih.mpr ⟨f, hf, hf0⟩)
          constructor
          · intro hc
            exact Option.noConfusion hc
          · intro hc
            rcases hc with ⟨f, hf, hf0⟩
            rcases List.mem_cons.mp hf with rfl | hfr
            · exact absurd hf0 hu
            · exact absurd hf0 (ih' f hfr)

/-- On success, the per-category loop maps each accumulated entry to its
average `valor / unidades`. -/
theorem promediosTipos_eq_some (l : List (String × ℤ × ℚ)) :
    ∀ r, promediosTipos l = some r →
      r = l.map fun e => (e.1, e.2.1, e.2.2 / (e.2.1 : ℚ)) := by
  induction l with
  | nil => intro r h; simp [promediosTipos] at h; simp [h]
  | cons e rest ih =>
      intro r h
      rcases e with ⟨t, u, v⟩
      by_cases hu : u = 0
      · simp [promediosTipos, hu] at h
      · rcases hrec : promediosTipos rest with _ | r'
        · rw [promediosTipos, if_neg hu, hrec] at h
          exact absurd h (by simp)
        · rw [promediosTipos, if_neg hu, hrec, Option.some_inj] at h
          rw [← h, List.map_cons, ih r' hrec]

/-- Every entry of the grouping accumulator carries its category's
quantity and value sums over the product list. -/
theorem acumularTipos_entry (ps : List Producto) (a : String × ℤ × ℚ)
    (ha : a ∈ acumularTipos ps) :
    a.1 ∈ ps.map Producto.tipo ∧ a.2.1 = sumCantTipo ps a.1 ∧
      a.2.2 = sumValorTipo ps a.1 := by
  have hnd : ((acumularTipos ps).map Prod.fst).Nodup := by
    rw [acumularTipos]
    exact acumularTipos_nodup ps [] (by simp)
  have hl := lookupTipo_of_mem _ a ha hnd
  rw [lookupTipo_acumularTipos] at hl
  by_cases hm : a.1 ∈ ps.map Producto.tipo
  · rw [if_pos hm, Option.some_inj] at hl
    exact ⟨hm, by rw [← hl], by rw [← hl]⟩
  · rw [if_neg hm] at hl
    exact Option.noConfusion hl

/-- Every category used by some product has an accumulator entry with its
sums. -/
theorem acumularTipos_mem_tipo (ps : List Producto) (t : String)
    (hm : t ∈ ps.map Producto.tipo) :
    (t, sumCantTipo ps t, sumValorTipo ps t) ∈ acumularTipos ps := by
  apply mem_of_lookupTipo
  rw [lookupTipo_acumularTipos, if_pos hm]

/-- C9: `Catalogo.informe` fails with a division by zero exactly when the
catalog's total unit count is zero or some category's total on-hand
quantity is zero (e.g. a catalog whose only product has quantity 0);
otherwise it reports the overall average `valorTotal / cantidadUnidades`
and, per category, the accumulated unit count and the average
`valor / unidades`. -/
theorem catalogo_informe_division_spec :
    (∀ c : Catalogo,
      (c.informeData = none ↔
        c.cantidadUnidades = 0 ∨
          ∃ t ∈ c.productos.map Producto.tipo,
            sumCantTipo c.productos t = 0) ∧
      (∀ prom dets, c.informeData = some (prom, dets) →
        prom = c.valorTotal / (c.cantidadUnidades : ℚ) ∧
        ∀ e ∈ dets, e.2.1 = sumCantTipo c.productos e.1 ∧ e.2.1 ≠ 0 ∧
          e.2.2 = sumValorTipo c.productos e.1 / (e.2.1 : ℚ))) ∧
    Catalogo.informeData ⟨[⟨"1111", "n", 10, "general", 0⟩], []⟩ = none := by
  refine ⟨fun c => ⟨?_, ?_⟩, rfl⟩
  · have hzero : (∃ e ∈ acumularTipos c.productos, e.2.1 = 0) ↔
        ∃ t ∈ c.productos.map Producto.tipo, sumCantTipo c.productos t = 0 := by
      constructor
      · rintro ⟨e, he, h0⟩
        obtain ⟨hm, hu, _⟩ := acumularTipos_entry c.productos e he
        exact ⟨e.1, hm, by rw [← hu, h0]⟩
      · rintro ⟨t, hm, h0⟩
        refine ⟨(t, sumCantTipo c.productos t, sumValorTipo c.productos t),
          acumularTipos_mem_tipo c.productos t hm, h0⟩
    by_cases hz : c.cantidadUnidades = 0
    · simp [Catalogo.informeData, hz]
    · rcases hA : promediosTipos (acumularTipos c.productos) with _ | dets
      · have hres : c.informeData = none := by
          simp [Catalogo.informeData, hz, hA]
        exact iff_of_true hres
          (Or.inr (hzero.mp ((promediosTipos_eq_none_iff _).mp hA)))
      · have hres : c.informeData =
            some (c.valorTotal / (c.cantidadUnidades : ℚ), dets) := by
          simp [Catalogo.informeData, hz, hA]
        apply iff_of_false
        · rw [hres]
          exact fun hc => Option.noConfusion hc
        · rintro (hc | hc)
          · exact hz hc
          · have hn : promediosTipos (acumularTipos c.productos) = none :=
              (promediosTipos_eq_none_iff _).mpr (hzero.mpr hc)
            rw [hA] at hn
            exact Option.noConfusion hn
  · intro prom dets h
    by_cases hz : c.cantidadUnidades = 0
    · rw [Catalogo.informeData, if_pos hz] at h
      exact Option.noConfusion h
    · rcases hA : promediosTipos (acumularTipos c.productos) with _ | r
      · rw [Catalogo.informeData, if_neg hz, hA] at h
        exact Option.noConfusion h
      · rw [Catalogo.informeData, if_neg hz, hA, Option.some_inj] at h
        have hprom : prom = c.valorTotal / (c.cantidadUnidades : ℚ) :=
          (Prod.ext_iff.mp h.symm).1
        have hdets : dets = r := (Prod.ext_iff.mp h.symm).2
        have hnozero : ∀ e ∈ acumularTipos c.productos, ¬ e.2.1 = 0 := by
          intro e he h0
          have : promediosTipos (acumularTipos c.productos) = none :=
            (promediosTipos_eq_none_iff _).mpr ⟨e, he, h0⟩
          rw [hA] at this
          exact Option.noConfusion this
        refine ⟨hprom, ?_⟩
        intro e he
        rw [hdets, promediosTipos_eq_some _ r hA] at he
        obtain ⟨a, ha, rfl⟩ := List.mem_map.mp he
        obtain ⟨_, hu, hv⟩ := acumularTipos_entry c.productos a ha
        refine ⟨hu, hnozero a ha, ?_⟩
        show a.2.2 / (a.2.1 : ℚ) = sumValorTipo c.productos a.1 / (a.2.1 : ℚ)
        rw [hv]

/-- C9 witness: the failure characterisation applied to the concrete
catalog whose only product has quantity 0. -/
theorem catalogo_informe_division_spec_witness :
    (Catalogo.mk [⟨"1111", "n", 10, "general", 0⟩] []).cantidadUnidades = 0 ∨
      ∃ t ∈ (Catalogo.mk [⟨"1111", "n", 10, "general", 0⟩] []).productos.map
          Producto.tipo,
        sumCantTipo (Catalogo.mk [⟨"1111", "n", 10, "general", 0⟩]
          []).productos t = 0 :=
  ((catalogo_informe_division_spec.1
      (Catalogo.mk [⟨"1111", "n", 10, "general", 0⟩] [])).1).mp rfl

/-- C5 witness: three invoices from a fresh counter get numbers 1, 2, 3,
and after resetting the counter to 100 the next invoice gets 101. -/
theorem factura_numeracion_contador_witness :
    (facturasSeq 0 3).1 = [1, 2, 3] ∧
      (facturaNueva (Factura.ultimaFactura 0 100)).1 = 101 := by
  have h := factura_numeracion_contador 0 100 3
  refine ⟨?_, ?_⟩
  · rw [h.1]
    decide
  · rw [h.2.2.2.2.2]
    decide
